import Mathlib

/-!
Verification of the postgres-mcp connection registry, transaction
coordinator, schema introspector and result serializer.

The TypeScript source is embedded shallowly:

* JavaScript objects keyed by strings (the connection registry, the
  all-schemas record) become association lists `List (String × _)`;
  a live `postgres.Sql` handle is opaque and is modelled by a `Nat` id.
* `throw`/`catch` becomes `Except String` (the thrown `Error`'s message).
* The database visible to a connection is modelled by `Db`, a list of
  base tables of the `public` schema; the catalog queries issued by
  `utils.ts` (existence check, column listing ordered by
  `ordinal_position`, table listing ordered by name) are embedded as
  the corresponding pure list operations.
* A statement execution against the database is an oracle
  `Operation → σ → Except String (Nat × σ)` returning the affected row
  count and the updated database state; `sql.begin` is modelled by an
  optional failure to open the transaction scope, and its rollback
  semantics by restoring the initial state.  Alongside the outcome the
  embedded coordinator returns the final state and the list of indices
  of the operations actually submitted, which are the externally
  observable effects of the call.
-/

namespace PostgresMcp

/-! ### JavaScript string helpers

`jsOr` is the `a || b` idiom on an optional string: both `undefined`
and the empty string are falsy.  `containsB` is
`String.prototype.includes`, `trimCharsB` is `String.prototype.trim`
on the character list, and `joinComma` is `Array.prototype.join(', ')`. -/

def jsOr : Option String → String → String
  | none, d => d
  | some s, d => if s = "" then d else s

def containsB (s pat : String) : Bool :=
  s.data.tails.any (fun t => pat.data.isPrefixOf t)

def wsB (c : Char) : Bool :=
  c == ' ' || c == '\t' || c == '\n' || c == '\r'

def trimCharsB (l : List Char) : List Char :=
  (((l.dropWhile wsB).reverse.dropWhile wsB)).reverse

def jsTrim (s : String) : String :=
  String.mk (trimCharsB s.data)

def joinComma : List String → String
  | [] => ""
  | [s] => s
  | s :: rest => s ++ ", " ++ joinComma rest

/-! ### Server configuration (`constants.ts`)

The process environment is a partial map from variable names to
strings. -/

abbrev Env := String → Option String

structure ServerConfig where
  name : String
  version : String
  defaultDbAlias : String
  enableAuth : Bool
  apiKey : Option String
deriving DecidableEq

def DEFAULT_SERVER_CONFIG : ServerConfig :=
  { name := "FastPostgresMCP"
    version := "1.0.0"
    defaultDbAlias := "main"
    enableAuth := false
    apiKey := none }

def loadDefaultDbAlias (env : Env) : String :=
  jsOr (env "DEFAULT_DB_ALIAS") "main"

def loadEnableAuth (env : Env) : Bool :=
  env "ENABLE_AUTH" == some "true" || env "ENABLE_AUTH" == some "1"

def loadApiKey (env : Env) : Option String :=
  env "MCP_API_KEY"

def getServerConfig (env : Env) : ServerConfig :=
  { DEFAULT_SERVER_CONFIG with
    defaultDbAlias := loadDefaultDbAlias env
    enableAuth := loadEnableAuth env
    apiKey := loadApiKey env }

/-! ### Connection registry (`core.ts` / `utils.ts`)

A handle to a live connection is opaque; `Nat` stands in for it.  The
registry is the string-keyed object `connections`. -/

abbrev Handle := Nat

abbrev Registry := List (String × Handle)

/-- `core.ts`: `const DEFAULT_DB_ALIAS = 'main'` — a module constant,
independent of the `DEFAULT_DB_ALIAS` environment variable read by
`constants.ts`. -/
def DEFAULT_DB_ALIAS : String := "main"

/-- `core.ts` `validateDbAlias`: resolve `dbAlias || DEFAULT_DB_ALIAS`
in the registry, throwing when the resolved alias is absent. -/
def validateDbAlias (conns : Registry) (dbAlias : Option String) : Except String Handle :=
  let a := jsOr dbAlias DEFAULT_DB_ALIAS
  match conns.lookup a with
  | some sql => .ok sql
  | none => .error ("Database connection '" ++ a ++ "' not found")

/-- `utils.ts` `getDbClient`: same resolution against a caller-supplied
default alias; on a miss it writes one `console.error` line (second
component) listing the registered aliases, then throws.  The thrown
message itself names only the attempted alias. -/
def getDbClient (conns : Registry) (dbAlias : Option String) (defaultAlias : String) :
    Except String Handle × List String :=
  let a := jsOr dbAlias defaultAlias
  match conns.lookup a with
  | some sql => (.ok sql, [])
  | none =>
    (.error ("Database connection for alias '" ++ a ++
        "' not found. Check your .env configuration."),
     ["Database connection for alias '" ++ a ++ "' not found. Available aliases: " ++
        joinComma (conns.map Prod.fst)])

/-! ### TLS option mapping

The value passed as the `ssl` option of the `postgres()` driver call.
`unset` is an absent/`undefined` option, `offVal`/`onVal` are the
JavaScript booleans, `withReject rejectUnauthorized` is the object form
`\x7b rejectUnauthorized \x7d`. -/

inductive SslOption where
  | unset
  | offVal
  | onVal
  | withReject (rejectUnauthorized : Bool)
deriving DecidableEq

/-- `core.ts` `initConnections`:
`ssl: config.ssl === 'disable' ? false : config.ssl ? true : undefined`. -/
def initConnectionsSsl : Option String → SslOption
  | none => .unset
  | some s =>
    if s = "disable" then .offVal
    else if s = "" then .unset
    else .onVal

/-- `utils.ts` `createPostgresClient`: the `sslConfig` computation. -/
def createPostgresClientSsl : Option String → SslOption
  | none => .unset
  | some s =>
    if s = "" then .unset
    else if s = "disable" then .offVal
    else if s = "require" then .withReject false
    else if s = "verify-ca" then .withReject true
    else if s = "verify-full" then .withReject true
    else .withReject false

/-- Reference definition written from the specification's words, for
comparison against the code's mappings above: for a provided, non-empty
TLS mode string, `disable` → no TLS, `require` → TLS without
certificate verification, `verify-ca`/`verify-full` → TLS with
certificate verification, any other non-empty value → TLS without
verification. -/
def sslModeSpec (s : String) : SslOption :=
  if s = "disable" then .offVal
  else if s = "require" then .withReject false
  else if s = "verify-ca" then .withReject true
  else if s = "verify-full" then .withReject true
  else .withReject false

/-! ### Transaction coordinator (`core.ts` `executeTransaction`)

`Operation` is the zod-validated tool input (`types.ts`): a statement
with positional parameters (defaulted to `[]` by the schema).  The
driver's response to one statement is the oracle
`exec : Operation → σ → Except String (Nat × σ)` over an abstract
database state `σ`: on success the affected row count and the new
state, on failure the thrown error's message.  `sql.begin` either
fails to open the scope (`beginErr = some e`) or runs the callback;
a throw out of the callback rolls every change back, so the state
reverts to the initial one. -/

structure Operation where
  statement : String
  params : List String := []
deriving DecidableEq

structure OperationResult where
  operation : Nat
  rowsAffected : Nat
deriving DecidableEq

/-- `types.ts` `TransactionResult`: the discriminated union of
`TransactionSuccess` (which carries only `results`) and
`TransactionFailure` (which carries only `error` and
`failedOperationIndex`). -/
inductive TransactionOutcome where
  | success (results : List OperationResult)
  | failure (error : String) (failedOperationIndex : Int)
deriving DecidableEq

/-- The `for` loop inside `sql.begin`: execute the operations in order
starting at index `i`, accumulating `\x7boperation, rowsAffected\x7d`
records; the first failure aborts with the error message and the
failing index.  Besides the loop's result it returns the state after
the executed operations and the indices submitted to the database. -/
def runOps {σ : Type} (exec : Operation → σ → Except String (Nat × σ)) :
    List Operation → Nat → σ → List OperationResult →
    Except (String × Nat) (List OperationResult) × σ × List Nat
  | [], _, st, acc => (.ok acc, st, [])
  | op :: rest, i, st, acc =>
    match exec op st with
    | .ok (count, st') =>
      let r := runOps exec rest (i + 1) st' (acc ++ [{ operation := i, rowsAffected := count }])
      (r.1, r.2.1, i :: r.2.2)
    | .error e => (.error (e, i), st, [i])

/-- `core.ts` `executeTransaction` after the connection has been
resolved.  Mirrors the mutable `transactionFailure` record: an
operation failure stores the message and index before rethrowing; the
outer catch returns the stored details when the stored message is
truthy, and otherwise the generic `Transaction failed: …` wrapper
around the caught error (this is the path taken when `sql.begin`
itself rejects, leaving `failedOperationIndex` at its initial `-1`).
Returns the outcome together with the final database state and the
list of submitted operation indices. -/
def executeTransaction {σ : Type} (exec : Operation → σ → Except String (Nat × σ))
    (beginErr : Option String) (ops : List Operation) (st : σ) :
    TransactionOutcome × σ × List Nat :=
  match beginErr with
  | some e => (.failure ("Transaction failed: " ++ e) (-1), st, [])
  | none =>
    match runOps exec ops 0 st [] with
    | (.ok results, st', tr) => (.success results, st', tr)
    | (.error (e, i), _, tr) =>
      (.failure (if e = "" then "Transaction failed: " else e) (i : Int), st, tr)

/-- The `transaction_tool` / programmatic entry: resolve the alias via
`validateDbAlias` (a miss is thrown, i.e. `Except.error`), then run the
transaction against the resolved connection's database.  `execOf` and
`beginErrOf` give each handle's statement oracle and scope-opening
behaviour, `stOf` would give its state; the state is passed explicitly. -/
def runTransactionTool {σ : Type} (conns : Registry)
    (execOf : Handle → Operation → σ → Except String (Nat × σ))
    (beginErrOf : Handle → Option String)
    (ops : List Operation) (dbAlias : Option String) (st : σ) :
    Except String (TransactionOutcome × σ × List Nat) :=
  match validateDbAlias conns dbAlias with
  | .error e => .error e
  | .ok hdl => .ok (executeTransaction (execOf hdl) (beginErrOf hdl) ops st)

/-- States reached by running a prefix of the operation list
successfully: `runPrefix exec st ops = some st'` when every operation
in `ops` succeeds in sequence from `st`, ending in `st'`.  Used to
phrase "operation `k` is the first to fail". -/
def runPrefix {σ : Type} (exec : Operation → σ → Except String (Nat × σ)) (st : σ) :
    List Operation → Option σ
  | [] => some st
  | op :: rest =>
    match exec op st with
    | .ok (_, st') => runPrefix exec st' rest
    | .error _ => none

/-! ### Schema introspector (`utils.ts`)

The catalog as seen through `information_schema`: the base tables of
the `public` schema with their column rows.  `ORDER BY` is embedded as
an insertion sort by the ordered-by column. -/

structure ColumnInfo where
  column_name : String
  data_type : String
  is_nullable : String
  column_default : Option String
  ordinal_position : Nat
deriving DecidableEq

structure Table where
  name : String
  columns : List ColumnInfo
deriving DecidableEq

abbrev Db := List Table

def insertLe {α : Type} (le : α → α → Bool) (a : α) : List α → List α
  | [] => [a]
  | b :: bs => if le a b then a :: b :: bs else b :: insertLe le a bs

def sortByLe {α : Type} (le : α → α → Bool) : List α → List α
  | [] => []
  | a :: as => insertLe le a (sortByLe le as)

/-- Lexicographic order on strings by character code, standing in for
the catalog's `ORDER BY table_name`. -/
def lexLeB : List Char → List Char → Bool
  | [], _ => true
  | _ :: _, [] => false
  | c :: cs, d :: ds =>
    if c.toNat < d.toNat then true
    else if d.toNat < c.toNat then false
    else lexLeB cs ds

def strLeB (s t : String) : Bool := lexLeB s.data t.data

def ordLeB (a b : ColumnInfo) : Bool := a.ordinal_position ≤ b.ordinal_position

/-- `utils.ts` `listTables`: base table names of the `public` schema,
`ORDER BY table_name`. -/
def listTables (db : Db) : List String :=
  sortByLe strLeB (db.map Table.name)

/-- The `information_schema.tables` existence probe in
`getTableSchema`. -/
def tableExistsB (db : Db) (tableName : String) : Bool :=
  db.any (fun t => t.name == tableName)

/-- The `information_schema.columns` query in `getTableSchema`: the
column rows whose `table_name` matches, `ORDER BY ordinal_position`. -/
def tableColumns (db : Db) (tableName : String) : List ColumnInfo :=
  sortByLe ordLeB ((db.filter (fun t => t.name == tableName)).flatMap Table.columns)

/-- The message thrown when the existence probe fails. -/
def tableMissingMsg (tableName : String) : String :=
  "Table '" ++ tableName ++ "' does not exist in the database."

/-- The message thrown when the table exists but the column query is
empty. -/
def noColumnsMsg (tableName : String) : String :=
  "No columns found for table '" ++ tableName ++ "'."

/-- The `catch` block of `utils.ts` `getTableSchema`: rewrap the caught
message, choosing the wrapper by substring checks on it. -/
def wrapSchemaError (tableName msg : String) : String :=
  if msg == "" || jsTrim msg == "" then
    "Failed to retrieve schema for '" ++ tableName ++
      "': Database connection error or permission issue"
  else if containsB msg "permission denied" || containsB msg "access denied" then
    "Permission denied accessing table '" ++ tableName ++ "': " ++ msg
  else if containsB msg "connection" then
    "Database connection error while retrieving schema for '" ++ tableName ++ "': " ++ msg
  else
    "Failed to retrieve schema for '" ++ tableName ++ "': " ++ msg

/-- The `try` body of `utils.ts` `getTableSchema`: existence check,
then the ordered column query, then the zero-columns check. -/
def getTableSchemaInner (db : Db) (tableName : String) : Except String (List ColumnInfo) :=
  if tableExistsB db tableName then
    let schema := tableColumns db tableName
    if schema.length = 0 then .error (noColumnsMsg tableName)
    else .ok schema
  else .error (tableMissingMsg tableName)

/-- `utils.ts` `getTableSchema`: the `try` body with its `catch`
rewrapping. -/
def getTableSchema (db : Db) (tableName : String) : Except String (List ColumnInfo) :=
  match getTableSchemaInner db tableName with
  | .ok schema => .ok schema
  | .error msg => .error (wrapSchemaError tableName msg)

/-- A JavaScript object assignment `record[k] = v`: replace the value
in place when the key exists, otherwise append the new entry. -/
def recordSet (m : List (String × List ColumnInfo)) (k : String) (v : List ColumnInfo) :
    List (String × List ColumnInfo) :=
  if m.any (fun p => p.1 == k) then
    m.map (fun p => if p.1 == k then (k, v) else p)
  else m ++ [(k, v)]

/-- The per-table fetch inside `getAllTableSchemas`' loop: a failing
`getTableSchema` is caught, logged, and replaced by the empty schema. -/
def schemaOrEmpty (db : Db) (tableName : String) : List ColumnInfo :=
  match getTableSchema db tableName with
  | .ok s => s
  | .error _ => []

/-- `utils.ts` `getAllTableSchemas`: list the tables, then fetch each
table's schema independently into the `schemas` record (the listing
itself never fails in this pure model, so the outer `catch` is dead). -/
def getAllTableSchemas (db : Db) : List (String × List ColumnInfo) :=
  (listTables db).foldl (fun schemas t => recordSet schemas t (schemaOrEmpty db t)) []

/-! ### Result serializer (`utils.ts` `safeJsonStringify`)

A JavaScript value as `JSON.stringify` sees it: the JSON-representable
constructors, plus `cyclic` for a value containing a reference cycle,
on which the underlying `JSON.stringify` throws
`TypeError: Converting circular structure to JSON`.  `jsonStringify`
is that underlying builtin (`Except.error` = throw), and
`safeJsonStringify` is the `try`/`catch` wrapper around it. -/

inductive JsValue where
  | null
  | bool (b : Bool)
  | num (n : Int)
  | str (s : String)
  | arr (elems : List JsValue)
  | obj (fields : List (String × JsValue))
  | cyclic

def escapeChar (c : Char) : String :=
  if c = '"' then "\\\""
  else if c = '\\' then "\\\\"
  else if c = '\n' then "\\n"
  else if c = '\t' then "\\t"
  else if c = '\r' then "\\r"
  else String.singleton c

def renderStr (s : String) : String :=
  "\"" ++ String.join (s.data.map escapeChar) ++ "\""

mutual

def jsonStringify : JsValue → Except String String
  | .null => .ok "null"
  | .bool true => .ok "true"
  | .bool false => .ok "false"
  | .num n => .ok (toString n)
  | .str s => .ok (renderStr s)
  | .cyclic => .error "Converting circular structure to JSON"
  | .arr elems =>
    match jsonStringifyList elems with
    | .ok s => .ok ("[" ++ s ++ "]")
    | .error e => .error e
  | .obj fields =>
    match jsonStringifyFields fields with
    | .ok s => .ok ("\x7b" ++ s ++ "\x7d")
    | .error e => .error e

def jsonStringifyList : List JsValue → Except String String
  | [] => .ok ""
  | [v] => jsonStringify v
  | v :: w :: rest =>
    match jsonStringify v, jsonStringifyList (w :: rest) with
    | .ok a, .ok b => .ok (a ++ "," ++ b)
    | .error e, _ => .error e
    | _, .error e => .error e

def jsonStringifyFields : List (String × JsValue) → Except String String
  | [] => .ok ""
  | [(k, v)] =>
    match jsonStringify v with
    | .ok a => .ok (renderStr k ++ ":" ++ a)
    | .error e => .error e
  | (k, v) :: f :: rest =>
    match jsonStringify v, jsonStringifyFields (f :: rest) with
    | .ok a, .ok b => .ok (renderStr k ++ ":" ++ a ++ "," ++ b)
    | .error e, _ => .error e
    | _, .error e => .error e

end

/-- `utils.ts` `safeJsonStringify`: return the serialization, or the
fixed fallback `"[]"` when it throws. -/
def safeJsonStringify (v : JsValue) : String :=
  match jsonStringify v with
  | .ok s => s
  | .error _ => "[]"

/-! ### Per-table schema resource endpoint (`core.ts` `registerResources`,
`db://\x7bdbAlias\x7d/schema/\x7btableName\x7d`) -/

/-- One `information_schema.columns` row as the serialized JSON object
the endpoint would emit. -/
def columnToJs (c : ColumnInfo) : JsValue :=
  .obj [("column_name", .str c.column_name),
        ("data_type", .str c.data_type),
        ("is_nullable", .str c.is_nullable),
        ("column_default", match c.column_default with | none => .null | some d => .str d),
        ("ordinal_position", .num (c.ordinal_position : Int))]

def columnsToJs (cols : List ColumnInfo) : JsValue :=
  .arr (cols.map columnToJs)

/-- The `load` handler of the `Table Schema` resource template:
resolve the alias, fetch the table schema, and throw when the schema
is missing or empty; every throw inside the `try` is rewrapped as
`Failed to get schema: …`.  `dbOf` maps a connection handle to the
database visible through it; `.ok text` is the returned
`\x7b text \x7d` payload. -/
def schemaResourceLoad (conns : Registry) (dbOf : Handle → Db)
    (dbAlias tableName : String) : Except String String :=
  match validateDbAlias conns (some dbAlias) with
  | .error e => .error ("Failed to get schema: " ++ e)
  | .ok hdl =>
    match getTableSchema (dbOf hdl) tableName with
    | .error e => .error ("Failed to get schema: " ++ e)
    | .ok schema =>
      if schema.length = 0 then
        .error ("Failed to get schema: Table '" ++ tableName ++ "' not found or has no columns")
      else .ok (safeJsonStringify (columnsToJs schema))

/-! ### Concrete fixtures used by the witnesses -/

def connsW : Registry := [("main", 0), ("analytics", 1)]

/-- An environment configuring a non-`main` default alias. -/
def envW : Env := fun k => if k = "DEFAULT_DB_ALIAS" then some "other" else none

/-- A statement oracle over a counter state: any statement succeeds
affecting one row and bumps the counter, except the statement `"FAIL"`
which throws `boom`. -/
def execW : Operation → Nat → Except String (Nat × Nat) :=
  fun op st => if op.statement = "FAIL" then .error "boom" else .ok (1, st + 1)

def opsW : List Operation :=
  [{ statement := "INSERT INTO t VALUES (1)" },
   { statement := "FAIL" },
   { statement := "INSERT INTO t VALUES (2)" }]

def colId : ColumnInfo :=
  { column_name := "id", data_type := "integer", is_nullable := "NO",
    column_default := some "nextval('users_id_seq'::regclass)", ordinal_position := 1 }

def colName : ColumnInfo :=
  { column_name := "name", data_type := "text", is_nullable := "NO",
    column_default := none, ordinal_position := 2 }

/-- A catalog with a normal table (columns listed out of order) and an
anomalous zero-column table. -/
def dbW : Db := [⟨"users", [colName, colId]⟩, ⟨"broken", []⟩]

/-! ### Claim C3: totality of the result serializer -/

/-- C3: the result serializer is total — `safeJsonStringify` returns a
string for every input (it is a function into `String`), and whenever
the underlying serialization fails internally (e.g. on a cyclic
structure) it returns exactly the fallback `"[]"`; when the underlying
serialization succeeds, its result is passed through unchanged. -/
theorem serializer_total_with_fallback (v : JsValue) :
    (∀ e, jsonStringify v = .error e → safeJsonStringify v = "[]") ∧
    (∀ s, jsonStringify v = .ok s → safeJsonStringify v = s) := by
  constructor
  · intro e he
    simp [safeJsonStringify, he]
  · intro s hs
    simp [safeJsonStringify, hs]

theorem serializer_total_with_fallback_witness :
    safeJsonStringify JsValue.cyclic = "[]" ∧
    safeJsonStringify (JsValue.arr [JsValue.num 1, JsValue.cyclic]) = "[]" ∧
    safeJsonStringify (JsValue.arr [JsValue.num 1]) = "[1]" :=
  ⟨(serializer_total_with_fallback JsValue.cyclic).1
      "Converting circular structure to JSON" rfl,
   (serializer_total_with_fallback (JsValue.arr [JsValue.num 1, JsValue.cyclic])).1
      "Converting circular structure to JSON" rfl,
   (serializer_total_with_fallback (JsValue.arr [JsValue.num 1])).2 "[1]" rfl⟩

/-! ### Claim C7: the empty transaction -/

/-- C7: running a transaction with an empty operations list against any
registered alias (and a connection whose transaction scope opens)
returns the success variant with an empty `results` list; no operation
is submitted to the database and the state is unchanged. -/
theorem empty_transaction_commits {σ : Type} (conns : Registry)
    (execOf : Handle → Operation → σ → Except String (Nat × σ))
    (beginErrOf : Handle → Option String) (dbAlias : Option String) (hdl : Handle) (st : σ)
    (hreg : validateDbAlias conns dbAlias = .ok hdl)
    (hbegin : beginErrOf hdl = none) :
    runTransactionTool conns execOf beginErrOf [] dbAlias st =
      .ok (.success [], st, []) := by
  simp [runTransactionTool, hreg, executeTransaction, hbegin, runOps]

theorem empty_transaction_commits_witness :
    runTransactionTool connsW (fun _ => execW) (fun _ => none) [] (some "analytics") (0 : Nat) =
      .ok (.success [], 0, []) :=
  empty_transaction_commits connsW (fun _ => execW) (fun _ => none)
    (some "analytics") 1 0 rfl rfl

/-! ### Claim C6: failure before any operation is attributed -/

/-- C6: when the transaction scope itself cannot be opened (the
connection-level failure is raised by `sql.begin` before any statement
runs), the returned outcome is the failure variant carrying the
wrapped connection error and `failedOperationIndex = -1`, no operation
is submitted, and the state is unchanged. -/
theorem transaction_open_failure_index {σ : Type} (conns : Registry)
    (execOf : Handle → Operation → σ → Except String (Nat × σ))
    (beginErrOf : Handle → Option String) (ops : List Operation)
    (dbAlias : Option String) (hdl : Handle) (st : σ) (e : String)
    (hreg : validateDbAlias conns dbAlias = .ok hdl)
    (hbegin : beginErrOf hdl = some e) :
    runTransactionTool conns execOf beginErrOf ops dbAlias st =
      .ok (.failure ("Transaction failed: " ++ e) (-1), st, []) := by
  simp [runTransactionTool, hreg, executeTransaction, hbegin]

theorem transaction_open_failure_index_witness :
    runTransactionTool connsW (fun _ => execW) (fun _ => some "connection refused") opsW
        (some "main") (0 : Nat) =
      .ok (.failure "Transaction failed: connection refused" (-1), 0, []) :=
  transaction_open_failure_index connsW (fun _ => execW) (fun _ => some "connection refused")
    opsW (some "main") 0 0 "connection refused" rfl rfl

/-! ### Claim C10: the configured default alias never affects resolution -/

/-- C10: when the `dbAlias` argument is omitted or empty, every
operation resolves the connection registered under the fixed alias
`'main'` (the module constant `DEFAULT_DB_ALIAS` of `core.ts`),
whatever value `defaultDbAlias` the server configuration loaded from
the `DEFAULT_DB_ALIAS` environment variable — the configured default
is quantified arbitrarily and does not occur in the conclusion. -/
theorem omitted_alias_resolves_main (conns : Registry) (env : Env) (d : String)
    (_hd : (getServerConfig env).defaultDbAlias = d) :
    validateDbAlias conns none = validateDbAlias conns (some "main") ∧
    validateDbAlias conns (some "") = validateDbAlias conns (some "main") ∧
    DEFAULT_DB_ALIAS = "main" := by
  refine ⟨?_, ?_, rfl⟩ <;> simp [validateDbAlias, jsOr, DEFAULT_DB_ALIAS]

theorem omitted_alias_resolves_main_witness :
    (getServerConfig envW).defaultDbAlias = "other" ∧
    validateDbAlias connsW none = .ok 0 ∧
    validateDbAlias connsW (some "") = .ok 0 := by
  have h := omitted_alias_resolves_main connsW envW "other" rfl
  exact ⟨rfl, by rw [h.1]; rfl, by rw [h.2.1]; rfl⟩

/-! ### Claim C9 (corrected): the TLS mode mapping -/

/-- C9 counterexample: the claim's mapping fails on the code —
`initConnections` (the function `core.ts` uses to open the server's
connections) maps the TLS mode `'require'` to the plain driver option
`ssl: true` (driver-default certificate handling), not to TLS without
certificate verification as the claimed mapping states. -/
theorem ssl_require_counterexample :
    initConnectionsSsl (some "require") = SslOption.onVal ∧
    sslModeSpec "require" = SslOption.withReject false ∧
    initConnectionsSsl (some "require") ≠ sslModeSpec "require" := by
  decide

/-- C9 (amended): for every non-empty TLS mode string,
`createPostgresClient` (`utils.ts`) realizes exactly the claimed
mapping, while `initConnections` (`core.ts`) only distinguishes
`'disable'` (no TLS) from every other non-empty value (`ssl: true`,
the driver default, with no verification distinction). -/
theorem ssl_mode_mapping (s : String) (hs : s ≠ "") :
    createPostgresClientSsl (some s) = sslModeSpec s ∧
    initConnectionsSsl (some s) = (if s = "disable" then SslOption.offVal else SslOption.onVal) := by
  constructor
  · simp [createPostgresClientSsl, sslModeSpec, hs]
  · by_cases hdis : s = "disable"
    · simp [initConnectionsSsl, hdis]
    · simp [initConnectionsSsl, hdis, hs]

theorem ssl_mode_mapping_witness :
    createPostgresClientSsl (some "require") = SslOption.withReject false ∧
    initConnectionsSsl (some "verify-full") = SslOption.onVal := by
  constructor
  · rw [(ssl_mode_mapping "require" (by decide)).1]
    decide
  · rw [(ssl_mode_mapping "verify-full" (by decide)).2]
    decide

/-! ### Claim C2 (corrected): connection resolution -/

/-- C2 counterexample: resolving an unregistered alias fails with an
error naming the attempted alias, but the error's message does not
list the currently-registered aliases — with `'main'` registered, the
substring `"main"` occurs in neither resolver's thrown message (the
list appears only in `getDbClient`'s `console.error` diagnostic). -/
theorem resolution_missing_alias_counterexample :
    (getDbClient [("main", 0)] (some "missing") "main").1 =
      .error "Database connection for alias 'missing' not found. Check your .env configuration." ∧
    containsB "Database connection for alias 'missing' not found. Check your .env configuration."
      "main" = false ∧
    validateDbAlias [("main", 0)] (some "missing") =
      .error "Database connection 'missing' not found" ∧
    containsB "Database connection 'missing' not found" "main" = false := by
  exact ⟨rfl, by decide, rfl, by decide⟩

/-- C2 (amended): a provided, registered alias resolves to its handle;
an omitted alias resolves exactly as the default alias would; an
unregistered alias fails with an error whose message names the
attempted alias, while the list of currently-registered aliases
appears only in `getDbClient`'s diagnostic log line, not in the thrown
message. -/
theorem connection_resolution_amended (conns : Registry) (a d : String) (hdl : Handle) :
    (conns.lookup a = some hdl → a ≠ "" →
      (getDbClient conns (some a) d).1 = .ok hdl ∧
      validateDbAlias conns (some a) = .ok hdl) ∧
    (getDbClient conns none d = getDbClient conns (some d) d ∧
      validateDbAlias conns none = validateDbAlias conns (some DEFAULT_DB_ALIAS)) ∧
    (conns.lookup a = none → a ≠ "" →
      getDbClient conns (some a) d =
        (.error ("Database connection for alias '" ++ a ++
            "' not found. Check your .env configuration."),
         ["Database connection for alias '" ++ a ++ "' not found. Available aliases: " ++
            joinComma (conns.map Prod.fst)]) ∧
      validateDbAlias conns (some a) =
        .error ("Database connection '" ++ a ++ "' not found")) := by
  refine ⟨?_, ⟨?_, ?_⟩, ?_⟩
  · intro hreg ha
    constructor <;> simp [getDbClient, validateDbAlias, jsOr, ha, hreg]
  · simp [getDbClient, jsOr]
  · simp [validateDbAlias, jsOr, DEFAULT_DB_ALIAS]
  · intro hmiss ha
    constructor <;> simp [getDbClient, validateDbAlias, jsOr, ha, hmiss]

theorem connection_resolution_amended_witness :
    (getDbClient connsW (some "analytics") "main").1 = .ok 1 ∧
    getDbClient connsW none "main" = getDbClient connsW (some "main") "main" ∧
    (getDbClient connsW (some "missing") "main").1 =
      .error "Database connection for alias 'missing' not found. Check your .env configuration." := by
  refine ⟨?_, ?_, ?_⟩
  · exact ((connection_resolution_amended connsW "analytics" "main" 1).1 rfl (by decide)).1
  · exact (connection_resolution_amended connsW "analytics" "main" 1).2.1.1
  · have h := ((connection_resolution_amended connsW "missing" "main" 0).2.2 rfl (by decide)).1
    rw [h]
    rfl

/-! ### Claim C8 (code bug): the per-table schema resource endpoint -/

/-- C8: the repository's spec and its own test suite state that the
per-table schema resource endpoint returns the serialized empty array
`"[]"` when the named table does not exist, but the `load` handler in
`core.ts` throws instead: at a registry with `'main'` registered and a
database without the requested table, the endpoint fails with a
`Failed to get schema: …` error and returns no payload at all. -/
theorem schema_resource_missing_table_throws :
    schemaResourceLoad [("main", 0)] (fun _ => []) "main" "nonexistent_table" =
      .error "Failed to get schema: Failed to retrieve schema for 'nonexistent_table': Table 'nonexistent_table' does not exist in the database." ∧
    ∀ s, schemaResourceLoad [("main", 0)] (fun _ => []) "main" "nonexistent_table" ≠ .ok s := by
  refine ⟨rfl, fun s h => ?_⟩
  exact Except.noConfusion h

/-! ### Claim C1: first failure inside a transaction -/

/-- The loop inside `sql.begin` on an operation list whose first `k`
operations succeed and whose `k`-th fails: it reports the error and
the absolute index, leaves the state at the failing operation, and has
submitted exactly the operations up to and including index `k`. -/
theorem runOps_first_failure {σ : Type} (exec : Operation → σ → Except String (Nat × σ))
    (e : String) (opk : Operation) (stk : σ) :
    ∀ (k : Nat) (ops : List Operation) (st : σ) (acc : List OperationResult) (i : Nat),
      runPrefix exec st (ops.take k) = some stk →
      ops[k]? = some opk →
      exec opk stk = .error e →
      runOps exec ops i st acc = (.error (e, i + k), stk, List.range' i (k + 1)) := by
  intro k
  induction k with
  | zero =>
    intro ops st acc i h1 h2 h3
    cases ops with
    | nil => simp at h2
    | cons op rest =>
      simp at h2
      subst h2
      simp [runPrefix] at h1
      subst h1
      simp [runOps, h3, List.range'_succ]
  | succ k ih =>
    intro ops st acc i h1 h2 h3
    cases ops with
    | nil => simp at h2
    | cons op rest =>
      simp only [List.getElem?_cons_succ] at h2
      rw [List.take_succ_cons] at h1
      cases hexec : exec op st with
      | error e' =>
        simp only [runPrefix, hexec] at h1
        exact absurd h1 (by simp)
      | ok p =>
        obtain ⟨c, st'⟩ := p
        simp only [runPrefix, hexec] at h1
        have hrec := ih rest st' (acc ++ [{ operation := i, rowsAffected := c }]) (i + 1) h1 h2 h3
        have harith : i + 1 + k = i + (k + 1) := by omega
        rw [harith] at hrec
        simp only [runOps, hexec, hrec, List.range'_succ]

/-- C1: when operation `k` is the first to fail (every earlier
operation succeeds in sequence from the initial state, and operation
`k` then throws), the transaction returns — as a normal value — the
failure variant carrying the recorded error and
`failedOperationIndex = k` (the message is replaced by the generic
`Transaction failed: ` wrapper only when the thrown message was empty,
i.e. falsy); the operations submitted to the database are exactly
those of indices `0..k` (none after `k`), the final state equals the
initial state (the whole scope was rolled back), and the outcome is
never the success variant, which alone carries per-operation results. -/
theorem transaction_first_failure {σ : Type} (exec : Operation → σ → Except String (Nat × σ))
    (ops : List Operation) (st stk : σ) (k : Nat) (opk : Operation) (e : String)
    (h1 : runPrefix exec st (ops.take k) = some stk)
    (h2 : ops[k]? = some opk)
    (h3 : exec opk stk = .error e) :
    executeTransaction exec none ops st =
      (.failure (if e = "" then "Transaction failed: " else e) (k : Int), st,
        List.range (k + 1)) ∧
    ∀ rs, (executeTransaction exec none ops st).1 ≠ TransactionOutcome.success rs := by
  have h := runOps_first_failure exec e opk stk k ops st [] 0 h1 h2 h3
  constructor
  · simp [executeTransaction, h, List.range_eq_range']
  · intro rs
    simp [executeTransaction, h]

theorem transaction_first_failure_witness :
    executeTransaction execW none opsW 0 = (.failure "boom" 1, 0, [0, 1]) := by
  have h := transaction_first_failure execW opsW 0 1 1 { statement := "FAIL" } "boom" rfl rfl rfl
  rw [h.1]
  decide

/-! ### Sorting lemmas for the embedded `ORDER BY` -/

theorem perm_insertLe {α : Type} (le : α → α → Bool) (a : α) (l : List α) :
    (insertLe le a l).Perm (a :: l) := by
  induction l with
  | nil => exact List.Perm.refl _
  | cons b bs ih =>
    simp only [insertLe]
    by_cases h : le a b = true
    · rw [if_pos h]
    · rw [if_neg h]
      exact (ih.cons b).trans (List.Perm.swap a b bs)

theorem perm_sortByLe {α : Type} (le : α → α → Bool) (l : List α) :
    (sortByLe le l).Perm l := by
  induction l with
  | nil => exact List.Perm.refl _
  | cons a as ih =>
    exact (perm_insertLe le a (sortByLe le as)).trans (ih.cons a)

theorem pairwise_insertLe {α : Type} (le : α → α → Bool)
    (htrans : ∀ a b c, le a b = true → le b c = true → le a c = true)
    (htot : ∀ a b, le a b = true ∨ le b a = true)
    (a : α) (l : List α) (hl : l.Pairwise (fun x y => le x y = true)) :
    (insertLe le a l).Pairwise (fun x y => le x y = true) := by
  induction l with
  | nil => simp [insertLe]
  | cons b bs ih =>
    rw [List.pairwise_cons] at hl
    obtain ⟨hb, hbs⟩ := hl
    simp only [insertLe]
    by_cases h : le a b = true
    · rw [if_pos h]
      refine List.Pairwise.cons ?_ (List.Pairwise.cons hb hbs)
      intro x hx
      rcases List.mem_cons.mp hx with rfl | hx'
      · exact h
      · exact htrans a b x h (hb x hx')
    · rw [if_neg h]
      have hba : le b a = true := (htot a b).resolve_left h
      refine List.Pairwise.cons ?_ (ih hbs)
      intro x hx
      have hmem := (perm_insertLe le a bs).mem_iff.mp hx
      rcases List.mem_cons.mp hmem with rfl | hx'
      · exact hba
      · exact hb x hx'

theorem pairwise_sortByLe {α : Type} (le : α → α → Bool)
    (htrans : ∀ a b c, le a b = true → le b c = true → le a c = true)
    (htot : ∀ a b, le a b = true ∨ le b a = true) (l : List α) :
    (sortByLe le l).Pairwise (fun x y => le x y = true) := by
  induction l with
  | nil => simp [sortByLe]
  | cons a as ih => exact pairwise_insertLe le htrans htot a (sortByLe le as) ih

/-! ### The two introspection error messages are never blank and never
coincide -/

theorem dropWhile_ne_nil_of_mem {α : Type} (p : α → Bool) (l : List α) (a : α)
    (ha : a ∈ l) (hpa : p a = false) : l.dropWhile p ≠ [] := by
  intro h
  rw [List.dropWhile_eq_nil_iff] at h
  have := h a ha
  rw [hpa] at this
  exact Bool.false_ne_true this

theorem trimCharsB_cons_ne_nil (c : Char) (l : List Char) (hc : wsB c = false) :
    trimCharsB (c :: l) ≠ [] := by
  unfold trimCharsB
  rw [List.dropWhile_cons, if_neg (by simp [hc])]
  intro h
  rw [List.reverse_eq_nil_iff] at h
  exact dropWhile_ne_nil_of_mem wsB (c :: l).reverse c (by simp) hc h

theorem notBlank_of_data_cons (msg : String) (c : Char) (rest : List Char)
    (hdata : msg.data = c :: rest) (hc : wsB c = false) :
    ((msg == "") || (jsTrim msg == "")) = false := by
  have h1 : (msg == "") = false := by
    rw [beq_eq_false_iff_ne]
    intro hcontra
    have := congrArg String.data hcontra
    rw [hdata] at this
    simp at this
  have h2 : (jsTrim msg == "") = false := by
    rw [beq_eq_false_iff_ne]
    intro hcontra
    have htrim : trimCharsB msg.data = [] := by
      have := congrArg String.data hcontra
      simpa [jsTrim] using this
    rw [hdata] at htrim
    exact trimCharsB_cons_ne_nil c rest hc htrim
  simp [h1, h2]

theorem tableMissingMsg_data (n : String) :
    (tableMissingMsg n).data =
      'T' :: (("able '" : String).data ++ n.data ++
        ("' does not exist in the database." : String).data) := by
  unfold tableMissingMsg
  rw [String.data_append, String.data_append]
  rw [show ("Table '" : String).data = 'T' :: ("able '" : String).data from rfl]
  simp [List.cons_append, List.append_assoc]

theorem noColumnsMsg_data (n : String) :
    (noColumnsMsg n).data =
      'N' :: (("o columns found for table '" : String).data ++ n.data ++
        ("'." : String).data) := by
  unfold noColumnsMsg
  rw [String.data_append, String.data_append]
  rw [show ("No columns found for table '" : String).data =
    'N' :: ("o columns found for table '" : String).data from rfl]
  simp [List.cons_append, List.append_assoc]

theorem tableMissingMsg_length (n : String) :
    (tableMissingMsg n).length = n.length + 40 := by
  unfold tableMissingMsg
  rw [String.length_append, String.length_append]
  rw [show ("Table '" : String).length = 7 from rfl,
    show ("' does not exist in the database." : String).length = 33 from rfl]
  omega

theorem noColumnsMsg_length (n : String) :
    (noColumnsMsg n).length = n.length + 30 := by
  unfold noColumnsMsg
  rw [String.length_append, String.length_append]
  rw [show ("No columns found for table '" : String).length = 28 from rfl,
    show ("'." : String).length = 2 from rfl]
  omega

theorem wrap_msgs_distinct (n : String) :
    wrapSchemaError n (tableMissingMsg n) ≠ wrapSchemaError n (noColumnsMsg n) := by
  have hb1 := notBlank_of_data_cons (tableMissingMsg n) 'T' _ (tableMissingMsg_data n) (by decide)
  have hb2 := notBlank_of_data_cons (noColumnsMsg n) 'N' _ (noColumnsMsg_data n) (by decide)
  have hl1 := tableMissingMsg_length n
  have hl2 := noColumnsMsg_length n
  intro h
  unfold wrapSchemaError at h
  rw [hb1, hb2] at h
  simp only [Bool.false_eq_true, if_false] at h
  split_ifs at h <;>
  · have hlen := congrArg String.length h
    simp only [String.length_append, hl1, hl2,
      show ("Permission denied accessing table '" : String).length = 35 from rfl,
      show ("Database connection error while retrieving schema for '" : String).length = 55
        from rfl,
      show ("Failed to retrieve schema for '" : String).length = 31 from rfl,
      show ("': " : String).length = 3 from rfl] at hlen
    omega

/-! ### Claim C4: `getTableSchema` discriminates absence from anomaly -/

/-- C4: for every catalog and table name — if the table does not exist
in the public namespace the call fails with the (wrapped)
table-does-not-exist error; if it exists with at least one column the
call returns its column descriptors, a permutation of the catalog rows
ordered by ordinal position ascending; if it exists with zero columns
the call fails with the (wrapped) no-columns error instead of
returning an empty schema; and the two error messages never coincide,
so callers can distinguish absence from anomaly. -/
theorem getTableSchema_spec (db : Db) (n : String) :
    (tableExistsB db n = false →
      getTableSchema db n = .error (wrapSchemaError n (tableMissingMsg n))) ∧
    (tableExistsB db n = true → tableColumns db n ≠ [] →
      getTableSchema db n = .ok (tableColumns db n) ∧
      (tableColumns db n).Pairwise
        (fun a b => a.ordinal_position ≤ b.ordinal_position) ∧
      (tableColumns db n).Perm
        ((db.filter (fun t => t.name == n)).flatMap Table.columns)) ∧
    (tableExistsB db n = true → tableColumns db n = [] →
      getTableSchema db n = .error (wrapSchemaError n (noColumnsMsg n))) ∧
    wrapSchemaError n (tableMissingMsg n) ≠ wrapSchemaError n (noColumnsMsg n) := by
  refine ⟨?_, ?_, ?_, wrap_msgs_distinct n⟩
  · intro hex
    simp [getTableSchema, getTableSchemaInner, hex]
  · intro hex hne
    refine ⟨?_, ?_, ?_⟩
    · simp [getTableSchema, getTableSchemaInner, hex, List.length_eq_zero, hne]
    · have hp := pairwise_sortByLe ordLeB
        (fun a b c hab hbc => by simp [ordLeB] at *; omega)
        (fun a b => by simp [ordLeB]; omega)
        ((db.filter (fun t => t.name == n)).flatMap Table.columns)
      exact hp.imp (fun hab => by simpa [ordLeB] using hab)
    · exact perm_sortByLe ordLeB ((db.filter (fun t => t.name == n)).flatMap Table.columns)
  · intro hex hnil
    simp [getTableSchema, getTableSchemaInner, hex, hnil]

theorem getTableSchema_spec_witness :
    getTableSchema dbW "missing" =
      .error "Failed to retrieve schema for 'missing': Table 'missing' does not exist in the database." ∧
    getTableSchema dbW "users" = .ok [colId, colName] ∧
    getTableSchema dbW "broken" =
      .error "Failed to retrieve schema for 'broken': No columns found for table 'broken'." := by
  refine ⟨?_, ?_, ?_⟩
  · rw [(getTableSchema_spec dbW "missing").1 (by decide)]
    rfl
  · rw [((getTableSchema_spec dbW "users").2.1 (by decide) (by decide)).1]
    rfl
  · rw [(getTableSchema_spec dbW "broken").2.2.1 (by decide) (by decide)]
    rfl

/-! ### Claim C5: per-table failures never abort the aggregation -/

theorem recordSet_append_of_absent (m : List (String × List ColumnInfo)) (k : String)
    (v : List ColumnInfo) (h : m.any (fun p => p.1 == k) = false) :
    recordSet m k v = m ++ [(k, v)] := by
  simp [recordSet, h]

theorem foldl_recordSet_eq (db : Db) :
    ∀ (ts : List String) (acc : List (String × List ColumnInfo)),
      ts.Nodup → (∀ t ∈ ts, acc.any (fun p => p.1 == t) = false) →
      ts.foldl (fun schemas t => recordSet schemas t (schemaOrEmpty db t)) acc =
        acc ++ ts.map (fun t => (t, schemaOrEmpty db t)) := by
  intro ts
  induction ts with
  | nil =>
    intro acc _ _
    simp
  | cons t ts' ih =>
    intro acc hnd habs
    rw [List.nodup_cons] at hnd
    rw [List.foldl_cons,
      recordSet_append_of_absent _ _ _ (habs t (List.mem_cons_self t ts'))]
    have hside : ∀ u ∈ ts',
        ((acc ++ [(t, schemaOrEmpty db t)]).any (fun p => p.1 == u)) = false := by
      intro u hu
      rw [List.any_append, habs u (List.mem_cons_of_mem t hu)]
      simp only [Bool.false_or, List.any_cons, List.any_nil, Bool.or_false]
      rw [beq_eq_false_iff_ne]
      intro hcontra
      subst hcontra
      exact hnd.1 hu
    rw [ih (acc ++ [(t, schemaOrEmpty db t)]) hnd.2 hside]
    simp

theorem lookup_map_pair (f : String → List ColumnInfo) :
    ∀ (ts : List String) (t : String), t ∈ ts →
      (ts.map (fun u => (u, f u))).lookup t = some (f t) := by
  intro ts
  induction ts with
  | nil =>
    intro t ht
    simp at ht
  | cons u ts' ih =>
    intro t ht
    by_cases h : t = u
    · subst h
      simp [List.lookup]
    · have ht' : t ∈ ts' := by
        rcases List.mem_cons.mp ht with h' | h'
        · exact absurd h' h
        · exact h'
      have hb : (t == u) = false := beq_eq_false_iff_ne.mpr h
      simp only [List.map_cons, List.lookup, hb]
      exact ih t ht'

/-- C5: whenever the table list itself can be fetched, the aggregation
returns one entry per listed table: the whole record is the pointwise
image of the table list, each table whose individual schema fetch
fails maps to the empty schema, and no table's failure disturbs any
other table's entry. -/
theorem getAllTableSchemas_resilient (db : Db) (hnd : (listTables db).Nodup) :
    getAllTableSchemas db =
      (listTables db).map (fun t => (t, schemaOrEmpty db t)) ∧
    (getAllTableSchemas db).map Prod.fst = listTables db ∧
    (∀ t, t ∈ listTables db → ∀ e, getTableSchema db t = .error e →
      (getAllTableSchemas db).lookup t = some []) := by
  have hmain : getAllTableSchemas db =
      (listTables db).map (fun t => (t, schemaOrEmpty db t)) := by
    unfold getAllTableSchemas
    rw [foldl_recordSet_eq db (listTables db) [] hnd (fun t _ => rfl)]
    simp
  refine ⟨hmain, ?_, ?_⟩
  · rw [hmain]
    simp [Function.comp_def]
  · intro t ht e he
    rw [hmain, lookup_map_pair (fun u => schemaOrEmpty db u) (listTables db) t ht]
    simp [schemaOrEmpty, he]

theorem getAllTableSchemas_resilient_witness :
    getAllTableSchemas dbW = [("broken", []), ("users", [colId, colName])] ∧
    (getAllTableSchemas dbW).lookup "broken" = some [] := by
  have h := getAllTableSchemas_resilient dbW (by decide)
  constructor
  · rw [h.1]
    decide
  · exact h.2.2 "broken" (by decide)
      (wrapSchemaError "broken" (noColumnsMsg "broken")) rfl

end PostgresMcp
